import Mathlib

/-!
Verification of the blog-post core of the aithena backend: a shallow
embedding of `src/modules/blog/blog.entity.ts` and
`src/modules/blog/blog.service.ts` (slug derivation and uniqueness,
category normalization, the publish/feature state machine, pagination and
the read-path error policy), with theorems settling the specification
claims about them.

Modelling conventions: timestamps are naturals; the persistent store is a
list of post records; a `Bool` flag passed to a read operation models the
backing store throwing an unexpected error during that call; JavaScript
strings are modelled through their character lists, with the regex classes
`\w` and `\s` taken on their ASCII members.
-/

namespace AithenaBlog

/-- Values of the `BlogCategory` enum (blog.entity.ts 5-10): the closed
category vocabulary. -/
def blogCategoryValues : List String :=
  ["newsroom", "thought-pieces", "achievements", "awards-recognition"]

/-- ASCII members of the regex class `\s` (JavaScript whitespace). -/
def isJsSpace (c : Char) : Bool :=
  c == ' ' || c == '\t' || c == '\n' || c == '\r' || c == '\x0b' || c == '\x0c'

/-- ASCII uppercase letter test, written on the code point. -/
def isUpperAscii (c : Char) : Bool := 65 ≤ c.toNat && c.toNat ≤ 90

/-- ASCII lowercase letter test, written on the code point. -/
def isLowerAscii (c : Char) : Bool := 97 ≤ c.toNat && c.toNat ≤ 122

/-- ASCII digit test, written on the code point. -/
def isDigitAscii (c : Char) : Bool := 48 ≤ c.toNat && c.toNat ≤ 57

/-- Member of the regex class `\w`: ASCII letter, digit or underscore. -/
def isJsWordChar (c : Char) : Bool :=
  isUpperAscii c || isLowerAscii c || isDigitAscii c || c == '_'

/-- Characters the slug pipeline collapses into a hyphen: the class `[\s_-]`. -/
def isSep (c : Char) : Bool := isJsSpace c || c == '_' || c == '-'

/-- JavaScript `toLowerCase` on one character (ASCII range). -/
def jsToLower (c : Char) : Char :=
  if 65 ≤ c.toNat && c.toNat ≤ 90 then Char.ofNat (c.toNat + 32) else c

/-- JavaScript `String.prototype.trim` on a character list. -/
def trimChars (l : List Char) : List Char :=
  ((l.dropWhile isJsSpace).reverse.dropWhile isJsSpace).reverse

/-- JavaScript `String.prototype.trim`. -/
def jsTrim (s : String) : String := ⟨trimChars s.toList⟩

/-- The regex replace of `/[\s_-]+/g` by a hyphen: every maximal run of
separator characters becomes one hyphen. The flag records whether the
previous character belonged to a run already replaced. -/
def collapseAux : Bool → List Char → List Char
  | _, [] => []
  | inSep, c :: cs =>
    if isSep c then
      if inSep then collapseAux true cs
      else '-' :: collapseAux true cs
    else c :: collapseAux false cs

/-- Collapse separator runs into single hyphens (blog.entity.ts 123). -/
def collapseSeps (l : List Char) : List Char := collapseAux false l

/-- The regex replace of `/^-+|-+$/g` by nothing: the leading hyphen run and
the trailing hyphen run are removed (blog.entity.ts 124). -/
def trimHyphens (l : List Char) : List Char :=
  ((l.dropWhile (fun c => c == '-')).reverse.dropWhile (fun c => c == '-')).reverse

/-- The body of `BlogPost.generateSlug` on a non-empty title
(blog.entity.ts 119-124): lower-case, trim, strip characters outside
`[\w\s-]`, collapse separator runs into single hyphens, trim edge hyphens. -/
def slugify (t : String) : String :=
  ⟨trimHyphens (collapseSeps ((trimChars (t.toList.map jsToLower)).filter
      (fun c => isJsWordChar c || isJsSpace c || c == '-')))⟩

/-- BlogPost.generateSlug (blog.entity.ts 114-125). `none` models a
non-string argument; the guard on a falsy or non-string title throws. -/
def generateSlug : Option String → Except String String
  | none => .error "Title is required to generate slug"
  | some t =>
    if t = "" then .error "Title is required to generate slug" else .ok (slugify t)

/-- Lowercase ASCII alphanumeric: the characters a well-formed slug may
contain besides the hyphen. -/
def isSlugChar (c : Char) : Bool := isLowerAscii c || isDigitAscii c

/-- No two adjacent hyphens anywhere in the list. -/
def noDoubleHyphen : List Char → Bool
  | [] => true
  | [_] => true
  | a :: b :: rest => !(a == '-' && b == '-') && noDoubleHyphen (b :: rest)

/-- The well-formedness the spec asserts of every derived slug: only
lowercase alphanumerics and hyphens, no leading or trailing hyphen, and no
run of two hyphens. -/
def slugWellFormed (s : String) : Bool :=
  s.toList.all (fun c => isSlugChar c || c == '-')
  && s.toList.head? != some '-'
  && s.toList.getLast? != some '-'
  && noDoubleHyphen s.toList

/-- Input to category normalization. `absent` models `undefined`/`null`,
`notArray` a non-collection value (the `!Array.isArray` test). -/
inductive CategoriesArg
  | absent
  | notArray
  | arr (cats : List String)

/-- Walk of JavaScript `[...new Set(xs)]` with the set of values already
seen made explicit: a value is kept at its first occurrence only. -/
def dedupFirstAux (seen : List String) : List String → List String
  | [] => []
  | c :: cs =>
    if seen.contains c then dedupFirstAux seen cs
    else c :: dedupFirstAux (c :: seen) cs

/-- JavaScript `[...new Set(xs)]`: duplicates removed, first occurrence
kept, order preserved. -/
def dedupFirst (l : List String) : List String := dedupFirstAux [] l

/-- BlogPostService.validateCategories (blog.service.ts 92-103), the same
logic as the entity hook BlogPost.validateCategories (blog.entity.ts
84-112): default to `["newsroom"]` for a missing, non-array or empty input,
otherwise deduplicate, keep only vocabulary members, and fall back to
`["newsroom"]` when nothing survives. -/
def validateCategories : CategoriesArg → List String
  | .absent => ["newsroom"]
  | .notArray => ["newsroom"]
  | .arr cats =>
    if cats.isEmpty then ["newsroom"]
    else
      let uniqueCategories :=
        (dedupFirst cats).filter (fun c => blogCategoryValues.contains c)
      if uniqueCategories.isEmpty then ["newsroom"] else uniqueCategories

/-- Case-insensitive hexadecimal digit (the regex class `[0-9a-f]` under
the `i` flag). -/
def isHexDigit (c : Char) : Bool :=
  isDigitAscii c || (97 ≤ c.toNat && c.toNat ≤ 102) || (65 ≤ c.toNat && c.toNat ≤ 70)

/-- Consume exactly `n` hexadecimal digits. -/
def hexRun : Nat → List Char → Option (List Char)
  | 0, cs => some cs
  | _ + 1, [] => none
  | n + 1, c :: cs => if isHexDigit c then hexRun n cs else none

/-- Consume one expected character. -/
def expectChar (c : Char) : List Char → Option (List Char)
  | [] => none
  | d :: cs => if d == c then some cs else none

/-- Consume one character of the class `[1-5]` (the UUID version position). -/
def expectVersionChar : List Char → Option (List Char)
  | [] => none
  | d :: cs => if 49 ≤ d.toNat && d.toNat ≤ 53 then some cs else none

/-- Consume one character of the class `[89ab]` under the `i` flag (the
UUID variant position). -/
def expectVariantChar : List Char → Option (List Char)
  | [] => none
  | d :: cs =>
    if d == '8' || d == '9' || d == 'a' || d == 'b' || d == 'A' || d == 'B' then some cs
    else none

/-- The test of the UUID regex of BlogPostService.validateAuthor
(blog.service.ts 86): eight hex digits, a hyphen, four hex digits, a
hyphen, a version digit and three hex digits, a hyphen, a variant digit
and three hex digits, a hyphen, twelve hex digits, anchored both ends. -/
def uuidRegexTest (s : String) : Bool :=
  (hexRun 8 s.toList >>= expectChar '-' >>= hexRun 4 >>= expectChar '-'
    >>= expectVersionChar >>= hexRun 3 >>= expectChar '-'
    >>= expectVariantChar >>= hexRun 3 >>= expectChar '-' >>= hexRun 12) == some []

/-- Error kinds the service raises, with their messages: `badRequest` is
BadRequestException (the spec's InvalidInput and InvalidTransition),
`notFound` is NotFoundException, `internal` is InternalServerErrorException
(the generic surfacing of StorageUnavailable on a write path). -/
inductive ServiceError
  | badRequest (msg : String)
  | notFound (msg : String)
  | internal (msg : String)
deriving Repr, DecidableEq

/-- BlogPostService.validateAuthor (blog.service.ts 81-90): a falsy (empty)
identifier is rejected first, then the UUID regex is applied. -/
def validateAuthor (author_id : String) : Except ServiceError Unit :=
  if author_id = "" then .error (.badRequest "Author ID is required")
  else if !uuidRegexTest author_id then .error (.badRequest "Invalid author ID format")
  else .ok ()

/-- The BlogPost record (blog.entity.ts 13-72). Timestamps are naturals,
nullable columns are options, the json categories column is a list of
strings. The three uploaded-image columns follow the same copy pattern as
`excerpt` and are elided. -/
structure BlogPost where
  id : String
  title : String
  slug : String
  content : String
  excerpt : Option String
  featured_image : Option String
  is_published : Bool
  is_featured : Bool
  view_count : Nat
  categories : List String
  author_id : String
  created_at : Nat
  published_at : Option Nat
deriving Repr, DecidableEq

/-- The BeforeInsert/BeforeUpdate hook BlogPost.updatePublishedAt
(blog.entity.ts 74-82): set `published_at` when published without a date,
clear it when not published. -/
def updatePublishedAtHook (now : Nat) (p : BlogPost) : BlogPost :=
  if p.is_published && p.published_at.isNone then { p with published_at := some now }
  else if !p.is_published then { p with published_at := none }
  else p

/-- The BeforeInsert/BeforeUpdate hook BlogPost.validateCategories
(blog.entity.ts 84-112): normalize the stored category list in place. -/
def validateCategoriesHook (p : BlogPost) : BlogPost :=
  { p with categories := validateCategories (.arr p.categories) }

/-- The BeforeInsert/BeforeUpdate hook BlogPost.generateSlugFromTitle
(blog.entity.ts 127-133): derive a slug when the title is set and the slug
is empty. The error branch of `generateSlug` is unreachable there since the
title is non-empty. -/
def generateSlugFromTitleHook (p : BlogPost) : BlogPost :=
  if p.title != "" && p.slug == "" then { p with slug := slugify p.title } else p

/-- The lifecycle hooks the store runs on every save, in declaration
order. -/
def applySaveHooks (now : Nat) (p : BlogPost) : BlogPost :=
  generateSlugFromTitleHook (validateCategoriesHook (updatePublishedAtHook now p))

/-- BlogPostService.isSlugTaken (blog.service.ts 63-79): a post with this
slug exists, the one with the excluded id not counting. -/
def isSlugTaken (store : List BlogPost) (slug : String) (excludeId : Option String) : Bool :=
  store.any (fun p =>
    p.slug == slug &&
      (match excludeId with
       | some e => p.id != e
       | none => true))

/-- The candidate the uniqueness loop probes at step `n`: the base slug
itself, then `base-1`, `base-2` and so on. -/
def slugCandidate (base : String) (n : Nat) : String :=
  if n = 0 then base else base ++ "-" ++ toString n

/-- The probe loop of BlogPostService.generateUniqueSlug (blog.service.ts
51-54), written with explicit fuel: while the candidate is taken, move to
the next counter. -/
def slugSearch (store : List BlogPost) (excludeId : Option String) (base : String) :
    Nat → Nat → String
  | 0, counter => slugCandidate base counter
  | fuel + 1, counter =>
    if isSlugTaken store (slugCandidate base counter) excludeId then
      slugSearch store excludeId base fuel (counter + 1)
    else slugCandidate base counter

/-- BlogPostService.generateUniqueSlug (blog.service.ts 45-61). A thrown
slug-generation error is caught and resurfaced as the BadRequest message of
line 59. Fuel one past the store size always reaches a free candidate,
since each stored post can occupy at most one of the pairwise distinct
candidates. -/
def generateUniqueSlug (store : List BlogPost) (title : Option String)
    (excludeId : Option String) : Except ServiceError String :=
  match generateSlug title with
  | .error _ => .error (.badRequest "Failed to generate unique slug")
  | .ok baseSlug => .ok (slugSearch store excludeId baseSlug (store.length + 1) 0)

/-- CreateBlogPostDTO (blog.dto.ts 12-83), restricted to the fields the
service reads; image fields are elided as in `BlogPost`. -/
structure CreateBlogPostDTO where
  title : String
  content : String
  excerpt : Option String
  featured_image : Option String
  is_published : Option Bool
  is_featured : Option Bool
  categories : Option (List String)
deriving Repr, DecidableEq

/-- UpdateBlogPostDTO (blog.dto.ts 85-156), all fields optional. -/
structure UpdateBlogPostDTO where
  title : Option String
  content : Option String
  excerpt : Option String
  featured_image : Option String
  is_published : Option Bool
  is_featured : Option Bool
  categories : Option (List String)
deriving Repr, DecidableEq

/-- The empty update request. -/
def emptyUpdateDTO : UpdateBlogPostDTO :=
  { title := none, content := none, excerpt := none, featured_image := none,
    is_published := none, is_featured := none, categories := none }

/-- JavaScript `x || null` on an optional string: an absent or empty value
becomes null. -/
def orNull : Option String → Option String
  | none => none
  | some s => if s = "" then none else some s

/-- BlogPostService.create (blog.service.ts 105-157): validate the author,
derive a unique slug, normalize categories (`categories || [NEWSROOM]`,
line 123), build the record with `is_published || false`,
`is_featured || false` and `published_at = is_published ? now : null`
(lines 127-142), and save it, which runs the entity hooks. The saved record
is appended to the store and returned (the re-read of line 147 returns the
record just saved). No publish/feature consistency check runs on this
path. -/
def create (store : List BlogPost) (now : Nat) (newId : String)
    (dto : CreateBlogPostDTO) (author_id : String) :
    Except ServiceError (List BlogPost × BlogPost) :=
  match validateAuthor author_id with
  | .error e => .error e
  | .ok _ =>
    match generateUniqueSlug store (some dto.title) none with
    | .error e => .error e
    | .ok slug =>
      let validatedCategories := validateCategories (.arr (dto.categories.getD ["newsroom"]))
      let blogPost : BlogPost :=
        { id := newId,
          title := jsTrim dto.title,
          slug := slug,
          content := jsTrim dto.content,
          excerpt := orNull (dto.excerpt.map jsTrim),
          featured_image := orNull dto.featured_image,
          is_published := dto.is_published.getD false,
          is_featured := dto.is_featured.getD false,
          view_count := 0,
          categories := validatedCategories,
          author_id := author_id,
          created_at := now,
          published_at := if dto.is_published.getD false then some now else none }
      let savedPost := applySaveHooks now blogPost
      .ok (store ++ [savedPost], savedPost)

/-- BlogPostService.findOne (blog.service.ts 345-368): the id goes through
validateAuthor before the store is consulted; an unknown id is NotFound.
The flag models the store throwing during the lookup, which the catch
resurfaces as the generic internal failure. -/
def findOne (storeFails : Bool) (store : List BlogPost) (id : String) :
    Except ServiceError BlogPost :=
  match validateAuthor id with
  | .error e => .error e
  | .ok _ =>
    if storeFails then .error (.internal "Failed to retrieve blog post")
    else
      match store.find? (fun p => p.id == id) with
      | none => .error (.notFound ("Blog post with ID " ++ id ++ " not found"))
      | some p => .ok p

/-- Tail of BlogPostService.update (blog.service.ts 452-483) once the post
is fetched and the slug step has resolved: normalize requested categories
(453-457), derive the publish-status effects (459-469) — publishing a
draft stamps `published_at := now`, unpublishing a published post clears
it and forces `is_featured := false` in the request — then reject
featuring whenever the resulting publish state is false (471-476),
`Object.assign` the effective request onto the record and save it through
the entity hooks (478-480). -/
def updateApply (store : List BlogPost) (now : Nat) (id : String) (dto : UpdateBlogPostDTO)
    (post : BlogPost) (newSlug : Option String) :
    Except ServiceError (List BlogPost × BlogPost) :=
  let newCategories : Option (List String) :=
    dto.categories.map (fun cs => validateCategories (.arr cs))
  let publishedAtPatch : Option (Option Nat) :=
    match dto.is_published with
    | some true => if !post.is_published then some (some now) else none
    | some false => if post.is_published then some none else none
    | none => none
  let featuredEff : Option Bool :=
    match dto.is_published with
    | some false => if post.is_published then some false else dto.is_featured
    | _ => dto.is_featured
  if featuredEff == some true &&
      (dto.is_published == some false ||
        (dto.is_published != some true && !post.is_published)) then
    .error (.badRequest "Cannot feature an unpublished post")
  else
    let assigned : BlogPost :=
      { post with
        title := dto.title.getD post.title,
        content := dto.content.getD post.content,
        excerpt := (match dto.excerpt with | some e => some e | none => post.excerpt),
        featured_image :=
          (match dto.featured_image with | some f => some f | none => post.featured_image),
        slug := newSlug.getD post.slug,
        categories := newCategories.getD post.categories,
        is_published := dto.is_published.getD post.is_published,
        is_featured := featuredEff.getD post.is_featured,
        published_at := publishedAtPatch.getD post.published_at }
    let savedPost := applySaveHooks now assigned
    .ok (store.map (fun p => if p.id == id then savedPost else p), savedPost)

/-- BlogPostService.update (blog.service.ts 434-493): validate the id,
fetch the post, regenerate the slug when the title changes (447-450), and
hand over to `updateApply` for the rest. The store is only written in the
success case. -/
def update (store : List BlogPost) (now : Nat) (id : String) (dto : UpdateBlogPostDTO) :
    Except ServiceError (List BlogPost × BlogPost) :=
  match validateAuthor id with
  | .error e => .error e
  | .ok _ =>
  match store.find? (fun p => p.id == id) with
  | none => .error (.notFound ("Blog post with ID " ++ id ++ " not found"))
  | some post =>
    match (match dto.title with
           | some t =>
             if t != "" && t != post.title then
               (generateUniqueSlug store (some t) (some id)).map some
             else .ok none
           | none => .ok none) with
    | .error e => .error e
    | .ok newSlug => updateApply store now id dto post newSlug

/-- BlogPostService.remove (blog.service.ts 495-520): validate the id,
fetch the post, delete it. -/
def remove (store : List BlogPost) (id : String) :
    Except ServiceError (List BlogPost × String) :=
  match validateAuthor id with
  | .error e => .error e
  | .ok _ =>
    match store.find? (fun p => p.id == id) with
    | none => .error (.notFound ("Blog post with ID " ++ id ++ " not found"))
    | some _ => .ok (store.filter (fun p => !(p.id == id)), "Blog post deleted successfully")

/-- Whether the pattern list occurs at the head of the text list. -/
def charsBeginWith : List Char → List Char → Bool
  | [], _ => true
  | _ :: _, [] => false
  | a :: as, b :: bs => a == b && charsBeginWith as bs

/-- Whether the pattern list occurs anywhere in the text list. -/
def charsContain (needle : List Char) : List Char → Bool
  | [] => charsBeginWith needle []
  | c :: cs => charsBeginWith needle (c :: cs) || charsContain needle cs

/-- SQL `ILIKE '%pat%'`: case-insensitive substring containment. LIKE
metacharacters inside the pattern are not modelled. -/
def containsCI (hay pat : String) : Bool :=
  charsContain (pat.toList.map jsToLower) (hay.toList.map jsToLower)

/-- SQL `LIKE '%pat%'`: case-sensitive substring containment. -/
def containsStr (hay pat : String) : Bool :=
  charsContain pat.toList hay.toList

/-- The text of the stored json categories column, as the query casts it
with `::text`. -/
def categoriesJsonText (cats : List String) : String :=
  "[" ++ String.intercalate "," (cats.map (fun c => "\"" ++ c ++ "\"")) ++ "]"

/-- The category predicate the queries use (blog.service.ts 198, 252, 572):
`post.categories::text LIKE '%"cat"%'`, a quoted-substring probe against
the json text. -/
def categoryLikeMatch (cats : List String) (cat : String) : Bool :=
  containsStr (categoriesJsonText cats) ("\"" ++ cat ++ "\"")

/-- BlogPostQuery (blog.service.ts 8-16). -/
structure BlogPostQuery where
  page : Option Nat
  limit : Option Nat
  search : Option String
  is_published : Option Bool
  is_featured : Option Bool
  author_id : Option String
  categories : Option (List String)
deriving Repr, DecidableEq

/-- The query with no filters and no explicit pagination. -/
def emptyQuery : BlogPostQuery :=
  { page := none, limit := none, search := none, is_published := none,
    is_featured := none, author_id := none, categories := none }

/-- PaginatedResult (blog.service.ts 18-24). -/
structure PaginatedResult where
  data : List BlogPost
  total : Nat
  page : Nat
  limit : Nat
  totalPages : Nat
deriving Repr, DecidableEq

/-- The free-text search disjunction of findAll and searchPosts
(blog.service.ts 171-174, 639-640): a case-insensitive substring match on
title, content or excerpt; a null excerpt never matches. -/
def matchesSearch (term : String) (p : BlogPost) : Bool :=
  containsCI p.title term || containsCI p.content term ||
    (match p.excerpt with
     | some e => containsCI e term
     | none => false)

/-- The conjunction of findAll's filters (blog.service.ts 169-207) on one
post: search, publish and feature status, author, and the requested
category set probed with the quoted-substring pattern, any requested
category sufficing. -/
def postMatchesQuery (q : BlogPostQuery) (p : BlogPost) : Bool :=
  (match q.search with
   | some s => if jsTrim s != "" then matchesSearch (jsTrim s) p else true
   | none => true)
  && (match q.is_published with
      | some b => p.is_published == b
      | none => true)
  && (match q.is_featured with
      | some b => p.is_featured == b
      | none => true)
  && (match q.author_id with
      | some aid => if aid = "" then true else p.author_id == aid
      | none => true)
  && (match q.categories with
      | some cats =>
        if cats.isEmpty then true
        else (validateCategories (.arr cats)).any (fun c => categoryLikeMatch p.categories c)
      | none => true)

/-- Insert one post into a list already ordered by the comparator. -/
def insertSorted (le : BlogPost → BlogPost → Bool) (p : BlogPost) :
    List BlogPost → List BlogPost
  | [] => [p]
  | q :: qs => if le p q then p :: q :: qs else q :: insertSorted le p qs

/-- Insertion sort by the comparator, modelling the SQL ORDER BY clauses. -/
def sortPosts (le : BlogPost → BlogPost → Bool) : List BlogPost → List BlogPost
  | [] => []
  | p :: ps => insertSorted le p (sortPosts le ps)

/-- ORDER BY created_at DESC. -/
def createdDescLe (p q : BlogPost) : Bool := q.created_at ≤ p.created_at

/-- ORDER BY published_at DESC, nulls first as PostgreSQL sorts them. -/
def publishedDescLe (p q : BlogPost) : Bool :=
  match p.published_at, q.published_at with
  | none, _ => true
  | some _, none => false
  | some x, some y => y ≤ x

/-- BlogPostService.findAll (blog.service.ts 159-230): page defaults to 1,
limit to 10, `skip = (page - 1) * limit`; the author filter is validated
while the query is built, before the store is consulted; `total` counts all
matches; the page is the sorted matches with `skip` dropped and `limit`
taken; `totalPages` is `Math.ceil(total / limit)`, which for a positive
limit is `(total + limit - 1) / limit` in natural division. A storage
failure is caught and rethrown as the generic internal failure (lines
221-229) — this read path does NOT return an empty result. -/
def findAll (storeFails : Bool) (store : List BlogPost) (q : BlogPostQuery) :
    Except ServiceError PaginatedResult :=
  let page := q.page.getD 1
  let limit := q.limit.getD 10
  let skip := (page - 1) * limit
  let authorCheck : Except ServiceError Unit :=
    match q.author_id with
    | some aid => if aid = "" then .ok () else validateAuthor aid
    | none => .ok ()
  match authorCheck with
  | .error e => .error e
  | .ok _ =>
    if storeFails then .error (.internal "Failed to retrieve blog posts")
    else
      let matching := store.filter (postMatchesQuery q)
      let total := matching.length
      .ok { data := ((sortPosts createdDescLe matching).drop skip).take limit,
            total := total, page := page, limit := limit,
            totalPages := (total + limit - 1) / limit }

/-- BlogPostService.searchPosts (blog.service.ts 628-653): a missing,
non-string or too-short term returns no results; matches are sorted by
published_at descending and capped at 50; any storage failure is swallowed
into an empty result. -/
def searchPosts (storeFails : Bool) (store : List BlogPost) (searchTerm : Option String)
    (onlyPublished : Bool) : List BlogPost :=
  match searchTerm with
  | none => []
  | some s =>
    if (jsTrim s).toList.length < 2 then []
    else if storeFails then []
    else
      ((sortPosts publishedDescLe (store.filter (fun p =>
          matchesSearch (jsTrim s) p && (!onlyPublished || p.is_published)))).take 50)

/-- BlogPostService.findByCategory (blog.service.ts 232-293): an
unrecognized category propagates as BadRequest; the data-layer
quoted-substring probe is followed by the application-level containment
filter; any storage failure is swallowed into an empty result. -/
def findByCategory (storeFails : Bool) (store : List BlogPost) (category : String)
    (published : Bool) : Except ServiceError (List BlogPost) :=
  if !(blogCategoryValues.contains category) then .error (.badRequest "Invalid category")
  else if storeFails then .ok []
  else
    let fetched := sortPosts publishedDescLe (store.filter (fun p =>
      (!published || p.is_published) && categoryLikeMatch p.categories category))
    .ok (fetched.filter (fun p => p.categories.contains category))

/-- BlogStatistics (blog.service.ts 26-34); by_category is the mapping in
vocabulary order. -/
structure BlogStatistics where
  total : Nat
  published : Nat
  drafts : Nat
  featured : Nat
  recently_published : Nat
  total_views : Nat
  by_category : List (String × Nat)
deriving Repr, DecidableEq

/-- The all-zero statistics result of the catch branch (blog.service.ts
693-706). -/
def zeroStatistics : BlogStatistics :=
  { total := 0, published := 0, drafts := 0, featured := 0, recently_published := 0,
    total_views := 0, by_category := blogCategoryValues.map (fun c => (c, 0)) }

/-- Count of the posts satisfying the predicate. -/
def countPosts (store : List BlogPost) (p : BlogPost → Bool) : Nat :=
  (store.filter p).length

/-- BlogPostService.getStatistics (blog.service.ts 655-708): independent
counts of total, published, drafts, featured and total views over
published posts, posts published strictly after the seven-day cutoff, and
the per-category counts via the quoted-substring probe (countby_category,
567-583). With the store failing, every sub-count's own catch and the
outer catch produce the all-zero result either way. -/
def getStatistics (storeFails : Bool) (store : List BlogPost) (sevenDaysAgo : Nat) :
    BlogStatistics :=
  if storeFails then zeroStatistics
  else
    { total := store.length,
      published := countPosts store (fun p => p.is_published),
      drafts := countPosts store (fun p => !p.is_published),
      featured := countPosts store (fun p => p.is_published && p.is_featured),
      recently_published := countPosts store (fun p => p.is_published &&
        (match p.published_at with
         | some t => sevenDaysAgo < t
         | none => false)),
      total_views := (store.filter (fun p => p.is_published)).foldr
        (fun p acc => p.view_count + acc) 0,
      by_category := blogCategoryValues.map (fun c =>
        (c, countPosts store (fun p => p.is_published && categoryLikeMatch p.categories c))) }

/-! Helper lemmas about deduplication. -/

theorem mem_dedupFirstAux (l : List String) :
    ∀ (seen : List String) (x : String),
      x ∈ dedupFirstAux seen l ↔ (x ∈ l ∧ x ∉ seen) := by
  induction l with
  | nil => intro seen x; simp [dedupFirstAux]
  | cons c cs ih =>
    intro seen x
    by_cases hc : seen.contains c
    · rw [dedupFirstAux, if_pos hc]
      rw [ih seen x]
      simp only [List.mem_cons]
      constructor
      · rintro ⟨hm, hs⟩
        exact ⟨Or.inr hm, hs⟩
      · rintro ⟨rfl | hm, hs⟩
        · exact absurd (by simpa using hc) hs
        · exact ⟨hm, hs⟩
    · rw [dedupFirstAux, if_neg hc]
      simp only [List.mem_cons, ih (c :: seen) x, List.mem_cons]
      constructor
      · rintro (rfl | ⟨hm, hs⟩)
        · exact ⟨Or.inl rfl, by simpa using hc⟩
        · refine ⟨Or.inr hm, fun h => hs (Or.inr h)⟩
      · rintro ⟨rfl | hm, hs⟩
        · exact Or.inl rfl
        · by_cases hx : x = c
          · exact Or.inl hx
          · exact Or.inr ⟨hm, fun h => (by rcases h with h | h; exact hx h; exact hs h)⟩

theorem mem_dedupFirst (l : List String) (x : String) : x ∈ dedupFirst l ↔ x ∈ l := by
  rw [dedupFirst, mem_dedupFirstAux]
  simp

theorem nodup_dedupFirstAux (l : List String) :
    ∀ seen : List String, (dedupFirstAux seen l).Nodup := by
  induction l with
  | nil => intro seen; simp [dedupFirstAux]
  | cons c cs ih =>
    intro seen
    by_cases hc : seen.contains c
    · rw [dedupFirstAux, if_pos hc]
      exact ih seen
    · rw [dedupFirstAux, if_neg hc]
      refine List.nodup_cons.mpr ⟨?_, ih (c :: seen)⟩
      intro hmem
      rw [mem_dedupFirstAux] at hmem
      exact hmem.2 (List.mem_cons_self c seen)

theorem nodup_dedupFirst (l : List String) : (dedupFirst l).Nodup :=
  nodup_dedupFirstAux l []

theorem validateCategories_arr_eq (cs : List String) (h : cs ≠ []) :
    validateCategories (.arr cs) =
      (if ((dedupFirst cs).filter (fun c => blogCategoryValues.contains c)).isEmpty
        then ["newsroom"]
        else (dedupFirst cs).filter (fun c => blogCategoryValues.contains c)) := by
  have hne : cs.isEmpty = false := by
    rcases cs with _ | _
    · exact absurd rfl h
    · rfl
  simp only [validateCategories, hne, Bool.false_eq_true, if_false]

/-- C6: category normalization returns the newsroom singleton for an
absent, non-collection or empty input and for an input with no vocabulary
member, and otherwise returns exactly the requested categories
deduplicated and restricted to the closed vocabulary; the concrete
examples of the spec evaluate as stated. -/
theorem c6_validateCategories_normalization :
    validateCategories .absent = ["newsroom"] ∧
    validateCategories .notArray = ["newsroom"] ∧
    validateCategories (.arr []) = ["newsroom"] ∧
    validateCategories (.arr ["invalid"]) = ["newsroom"] ∧
    validateCategories (.arr ["newsroom", "newsroom", "achievements"])
      = ["newsroom", "achievements"] ∧
    (∀ cs : List String, (∀ x ∈ cs, x ∉ blogCategoryValues) →
      validateCategories (.arr cs) = ["newsroom"]) ∧
    (∀ cs : List String, ∀ x0 ∈ cs, x0 ∈ blogCategoryValues →
      (validateCategories (.arr cs)).Nodup ∧
      (∀ x, x ∈ validateCategories (.arr cs) ↔ (x ∈ cs ∧ x ∈ blogCategoryValues))) := by
  refine ⟨rfl, rfl, rfl, by decide, by decide, ?_, ?_⟩
  · intro cs h
    rcases cs with _ | ⟨c, cs⟩
    · rfl
    · rw [validateCategories_arr_eq _ (by simp), if_pos]
      rw [List.isEmpty_iff, List.filter_eq_nil_iff]
      intro a ha
      have : a ∈ c :: cs := (mem_dedupFirst _ _).mp ha
      have := h a this
      simpa using this
  · intro cs x0 hx0 hx0v
    have hne : cs ≠ [] := by
      intro hcs
      rw [hcs] at hx0
      simp at hx0
    have hmemf : x0 ∈ (dedupFirst cs).filter (fun c => blogCategoryValues.contains c) := by
      rw [List.mem_filter]
      exact ⟨(mem_dedupFirst _ _).mpr hx0, by simpa using hx0v⟩
    have hfne : ¬(((dedupFirst cs).filter (fun c => blogCategoryValues.contains c)).isEmpty = true) := by
      intro hf
      rw [List.isEmpty_iff] at hf
      rw [hf] at hmemf
      simp at hmemf
    have hval : validateCategories (.arr cs)
        = (dedupFirst cs).filter (fun c => blogCategoryValues.contains c) := by
      rw [validateCategories_arr_eq _ hne, if_neg hfne]
    rw [hval]
    refine ⟨List.Nodup.filter _ (nodup_dedupFirst cs), ?_⟩
    intro x
    rw [List.mem_filter, mem_dedupFirst]
    simp

/-! The create path and the C1 invariant. -/

/-- A well-formed author identifier used by the concrete scenarios. -/
def demoAuthorId : String := "11111111-1111-4111-8111-111111111111"

/-- A well-formed post identifier used by the concrete scenarios. -/
def demoPostId : String := "22222222-2222-4222-8222-222222222222"

/-- The create request of the C1 scenario: featured, publication not
requested. -/
def c1CreateDTO : CreateBlogPostDTO :=
  { title := "My Post", content := "0123456789", excerpt := none, featured_image := none,
    is_published := none, is_featured := some true, categories := none }

/-- C1: the create path breaks the `isFeatured` implies `isPublished`
invariant. A create request with `is_featured = true` and `is_published`
absent succeeds and stores a post with `is_featured = true` and
`is_published = false`: BlogPostService.create copies the two flags with
no consistency check, and no entity hook repairs them. -/
theorem c1_create_stores_featured_unpublished :
    (create [] 0 demoPostId c1CreateDTO demoAuthorId).map
      (fun r => (r.2.is_featured, r.2.is_published)) = .ok (true, false) := by
  rfl

/-! The read-path failure policy (C2). -/

/-- C2 counterexample: a storage failure during findAll is rethrown as the
generic internal failure — the list operation does not return an empty
result set, contradicting the claim for the list/findAll read path. -/
theorem c2_findAll_failure_counterexample :
    findAll true [] emptyQuery = .error (.internal "Failed to retrieve blog posts") := by
  rfl

/-- C2 (amended): on an unexpected storage failure, search,
find-by-category and statistics swallow the error into an empty or
all-zero result, and validation failures still propagate; findAll instead
propagates the generic internal failure. -/
theorem c2_read_path_failure_policy :
    (∀ (store : List BlogPost) (term : Option String) (pub : Bool),
      searchPosts true store term pub = []) ∧
    (∀ (store : List BlogPost) (cat : String) (pub : Bool),
      blogCategoryValues.contains cat = true → findByCategory true store cat pub = .ok []) ∧
    (∀ (store : List BlogPost) (cat : String) (pub : Bool),
      blogCategoryValues.contains cat = false →
        findByCategory true store cat pub = .error (.badRequest "Invalid category")) ∧
    (∀ (store : List BlogPost) (sevenDaysAgo : Nat),
      getStatistics true store sevenDaysAgo = zeroStatistics) ∧
    (∀ (store : List BlogPost) (q : BlogPostQuery), q.author_id = none →
      findAll true store q = .error (.internal "Failed to retrieve blog posts")) ∧
    (∀ (store : List BlogPost) (q : BlogPostQuery) (aid : String),
      q.author_id = some aid → aid ≠ "" → uuidRegexTest aid = false →
        findAll true store q = .error (.badRequest "Invalid author ID format")) := by
  refine ⟨?_, ?_, ?_, ?_, ?_, ?_⟩
  · intro store term pub
    rcases term with _ | s
    · rfl
    · simp only [searchPosts]
      split
      · rfl
      · rfl
  · intro store cat pub h
    unfold findByCategory
    rw [if_neg (by simpa using h)]
    rfl
  · intro store cat pub h
    unfold findByCategory
    rw [if_pos (by simpa using h)]
  · intro store sevenDaysAgo
    rfl
  · intro store q hq
    unfold findAll
    rw [hq]
    rfl
  · intro store q aid hq hne hbad
    unfold findAll
    rw [hq]
    simp only [if_neg hne]
    unfold validateAuthor
    rw [if_neg hne, if_pos (by simp [hbad])]

/-! Identifier validation on the single-post operations (C10). -/

/-- The message validateAuthor rejects a malformed identifier with: the
empty string hits the required-check first, every other non-UUID string
hits the format check. -/
def authorErrMsg (id : String) : String :=
  if id = "" then "Author ID is required" else "Invalid author ID format"

/-- C10 counterexample: the empty string does not match the UUID regex,
yet findOne rejects it with the message of the required-check, not with
the claimed "Invalid author ID format". -/
theorem c10_empty_id_message_counterexample :
    findOne false [] "" = .error (.badRequest "Author ID is required") ∧
    findOne false [] "" ≠ .error (.badRequest "Invalid author ID format") := by
  refine ⟨rfl, fun h => ?_⟩
  rw [show findOne false [] ""
      = Except.error (ServiceError.badRequest "Author ID is required") from rfl] at h
  have h2 : "Author ID is required" = "Invalid author ID format" := by
    injection h with h1
    injection h1
  exact absurd h2 (by decide)

/-- C10 (amended): every id failing the UUID regex is rejected by findOne,
update and remove with an InvalidInput error before the store is consulted
(the result does not depend on the store or on a store failure) — with
message "Invalid author ID format", except the empty string, rejected as
"Author ID is required" — and NotFound arises only for a well-formed id
matching no stored post. -/
theorem c10_invalid_id_rejected_before_store (fail : Bool) (store : List BlogPost)
    (now : Nat) (id : String) (dto : UpdateBlogPostDTO)
    (hbad : uuidRegexTest id = false) :
    findOne fail store id = .error (.badRequest (authorErrMsg id)) ∧
    update store now id dto = .error (.badRequest (authorErrMsg id)) ∧
    remove store id = .error (.badRequest (authorErrMsg id)) ∧
    (∀ (idW : String) (storeW : List BlogPost), uuidRegexTest idW = true →
      storeW.find? (fun p => p.id == idW) = none →
        findOne false storeW idW
          = .error (.notFound ("Blog post with ID " ++ idW ++ " not found"))) := by
  have hval : validateAuthor id = .error (.badRequest (authorErrMsg id)) := by
    unfold validateAuthor authorErrMsg
    by_cases he : id = ""
    · rw [if_pos he, if_pos he]
    · rw [if_neg he, if_neg he, if_pos (by simp [hbad])]
  refine ⟨?_, ?_, ?_, ?_⟩
  · unfold findOne
    rw [hval]
  · unfold update
    rw [hval]
  · unfold remove
    rw [hval]
  · intro idW storeW hgood hnone
    have hvW : validateAuthor idW = .ok () := by
      unfold validateAuthor
      have : idW ≠ "" := by
        intro h
        rw [h] at hgood
        simp [uuidRegexTest, hexRun] at hgood
      rw [if_neg this, if_neg (by simp [hgood])]
    unfold findOne
    rw [hvW]
    simp only [if_neg (by simp : ¬(false = true))]
    rw [hnone]

/-- C10 witness: the amended theorem applied to the concrete non-UUID id
"nope" against the empty store. -/
theorem c10_invalid_id_rejected_before_store_witness :
    findOne false [] "nope" = .error (.badRequest (authorErrMsg "nope")) ∧
    update [] 0 "nope" emptyUpdateDTO = .error (.badRequest (authorErrMsg "nope")) ∧
    remove [] "nope" = .error (.badRequest (authorErrMsg "nope")) ∧
    (∀ (idW : String) (storeW : List BlogPost), uuidRegexTest idW = true →
      storeW.find? (fun p => p.id == idW) = none →
        findOne false storeW idW
          = .error (.notFound ("Blog post with ID " ++ idW ++ " not found"))) :=
  c10_invalid_id_rejected_before_store false [] 0 "nope" emptyUpdateDTO (by rfl)

/-! Helper lemmas about the save hooks and the update pipeline. -/

theorem applySaveHooks_is_published (now : Nat) (p : BlogPost) :
    (applySaveHooks now p).is_published = p.is_published := by
  unfold applySaveHooks generateSlugFromTitleHook validateCategoriesHook updatePublishedAtHook
  split_ifs <;> rfl

theorem applySaveHooks_is_featured (now : Nat) (p : BlogPost) :
    (applySaveHooks now p).is_featured = p.is_featured := by
  unfold applySaveHooks generateSlugFromTitleHook validateCategoriesHook updatePublishedAtHook
  split_ifs <;> rfl

theorem applySaveHooks_published_at (now : Nat) (p : BlogPost) :
    (applySaveHooks now p).published_at =
      (if p.is_published
        then (if p.published_at.isNone then some now else p.published_at)
        else none) := by
  unfold applySaveHooks generateSlugFromTitleHook validateCategoriesHook updatePublishedAtHook
  rcases hp : p.is_published <;> rcases hn : p.published_at <;>
    simp [hp, hn] <;> split_ifs <;> rfl

theorem applySaveHooks_published_at_isSome (now : Nat) (p : BlogPost) :
    (applySaveHooks now p).published_at.isSome = (applySaveHooks now p).is_published := by
  rw [applySaveHooks_published_at, applySaveHooks_is_published]
  rcases hp : p.is_published <;> rcases hn : p.published_at <;> simp [hp, hn]

theorem generateUniqueSlug_ok (store : List BlogPost) (t : String) (excl : Option String)
    (h : t ≠ "") :
    generateUniqueSlug store (some t) excl
      = .ok (slugSearch store excl (slugify t) (store.length + 1) 0) := by
  simp only [generateUniqueSlug, generateSlug]
  rw [if_neg h]

theorem update_eq_updateApply (store : List BlogPost) (now : Nat) (id : String)
    (dto : UpdateBlogPostDTO) (post : BlogPost)
    (hval : validateAuthor id = .ok ())
    (hfind : store.find? (fun p => p.id == id) = some post) :
    ∃ ns : Option String, update store now id dto = updateApply store now id dto post ns := by
  unfold update
  simp only [hval, hfind]
  split
  · rename_i e heq
    exfalso
    split at heq
    · rename_i t hdt
      split at heq
      · rename_i hcond
        have ht : t ≠ "" := by
          simp only [Bool.and_eq_true] at hcond
          simpa using hcond.1
        rw [generateUniqueSlug_ok store t (some id) ht] at heq
        simp [Except.map] at heq
      · simp at heq
    · simp at heq
  · rename_i ns heq
    exact ⟨ns, rfl⟩

theorem updateApply_unpublish (store : List BlogPost) (now : Nat) (id : String)
    (dto : UpdateBlogPostDTO) (post : BlogPost) (ns : Option String)
    (hpub : post.is_published = true) (hreq : dto.is_published = some false) :
    ∃ saved, updateApply store now id dto post ns
        = .ok (store.map (fun p => if p.id == id then saved else p), saved) ∧
      saved.is_published = false ∧ saved.is_featured = false ∧ saved.published_at = none := by
  unfold updateApply
  rw [hreq, hpub]
  refine ⟨_, rfl, ?_, ?_, ?_⟩
  · rw [applySaveHooks_is_published]
    rfl
  · rw [applySaveHooks_is_featured]
    rfl
  · rw [applySaveHooks_published_at]
    rfl

theorem updateApply_feature_draft_error (store : List BlogPost) (now : Nat) (id : String)
    (dto : UpdateBlogPostDTO) (post : BlogPost) (ns : Option String)
    (hdraft : post.is_published = false)
    (hfeat : dto.is_featured = some true)
    (hnp : dto.is_published ≠ some true) :
    updateApply store now id dto post ns
      = .error (.badRequest "Cannot feature an unpublished post") := by
  unfold updateApply
  rcases hip : dto.is_published with _ | b
  · rw [hdraft, hfeat, if_pos (by decide)]
  · rcases b
    · rw [hdraft, hfeat, if_pos (by decide)]
    · exact absurd hip hnp

/-- C3: on a stored published post, an update that sets
`is_published = false` succeeds and yields an unpublished, unfeatured post
with `published_at = null` — even when the same request also sets
`is_featured = true`, since the forced un-feature of blog.service.ts 467
overwrites the requested flag before the feature check of line 472 runs. -/
theorem c3_update_unpublish_clears_feature_and_date (store : List BlogPost) (now : Nat)
    (id : String) (dto : UpdateBlogPostDTO) (post : BlogPost)
    (hval : validateAuthor id = .ok ())
    (hfind : store.find? (fun p => p.id == id) = some post)
    (hpub : post.is_published = true)
    (hreq : dto.is_published = some false) :
    ∃ r, update store now id dto = .ok r ∧
      r.2.is_published = false ∧ r.2.is_featured = false ∧ r.2.published_at = none := by
  obtain ⟨ns, heq⟩ := update_eq_updateApply store now id dto post hval hfind
  obtain ⟨saved, happ, h1, h2, h3⟩ := updateApply_unpublish store now id dto post ns hpub hreq
  exact ⟨_, heq.trans happ, h1, h2, h3⟩

/-- The post and request of the C3 scenario: a published featured post,
asked to unpublish and to feature in the same request. -/
def c3Post : BlogPost :=
  { id := demoPostId, title := "T", slug := "t", content := "c", excerpt := none,
    featured_image := none, is_published := true, is_featured := true, view_count := 0,
    categories := ["newsroom"], author_id := demoAuthorId, created_at := 0,
    published_at := some 0 }

def c3DTO : UpdateBlogPostDTO :=
  { emptyUpdateDTO with is_published := some false, is_featured := some true }

/-- C3 witness: the theorem applied to the concrete scenario. -/
theorem c3_update_unpublish_clears_feature_and_date_witness :
    ∃ r, update [c3Post] 5 demoPostId c3DTO = .ok r ∧
      r.2.is_published = false ∧ r.2.is_featured = false ∧ r.2.published_at = none :=
  c3_update_unpublish_clears_feature_and_date [c3Post] 5 demoPostId c3DTO c3Post
    (by rfl) (by rfl) rfl rfl

/-- C4: an update that sets `is_featured = true` on a stored draft without
setting `is_published = true` in the same request fails with the
InvalidTransition error "Cannot feature an unpublished post"
(blog.service.ts 471-476); the error is raised before the record is
assigned or saved, so the store is not written. -/
theorem c4_feature_draft_rejected (store : List BlogPost) (now : Nat)
    (id : String) (dto : UpdateBlogPostDTO) (post : BlogPost)
    (hval : validateAuthor id = .ok ())
    (hfind : store.find? (fun p => p.id == id) = some post)
    (hdraft : post.is_published = false)
    (hfeat : dto.is_featured = some true)
    (hnp : dto.is_published ≠ some true) :
    update store now id dto = .error (.badRequest "Cannot feature an unpublished post") := by
  obtain ⟨ns, heq⟩ := update_eq_updateApply store now id dto post hval hfind
  exact heq.trans (updateApply_feature_draft_error store now id dto post ns hdraft hfeat hnp)

/-- The post and request of the C4 scenario: a draft post asked to be
featured with no publish request. -/
def c4Post : BlogPost :=
  { id := demoPostId, title := "T", slug := "t", content := "c", excerpt := none,
    featured_image := none, is_published := false, is_featured := false, view_count := 0,
    categories := ["newsroom"], author_id := demoAuthorId, created_at := 0,
    published_at := none }

def c4DTO : UpdateBlogPostDTO :=
  { emptyUpdateDTO with is_featured := some true }

/-- C4 witness: the theorem applied to the concrete scenario. -/
theorem c4_feature_draft_rejected_witness :
    update [c4Post] 5 demoPostId c4DTO
      = .error (.badRequest "Cannot feature an unpublished post") :=
  c4_feature_draft_rejected [c4Post] 5 demoPostId c4DTO c4Post
    (by rfl) (by rfl) rfl rfl (by simp [c4DTO, emptyUpdateDTO])

theorem updateApply_ok_shape (store : List BlogPost) (now : Nat) (id : String)
    (dto : UpdateBlogPostDTO) (post : BlogPost) (ns : Option String)
    (r : List BlogPost × BlogPost)
    (h : updateApply store now id dto post ns = .ok r) :
    ∃ a, r.2 = applySaveHooks now a := by
  unfold updateApply at h
  repeat' first
    | split at h
    | dsimp only at h
  all_goals first
    | exact Except.noConfusion h
    | exact Except.noConfusion h (fun h2 => ⟨_, congrArg Prod.snd h2.symm⟩)

theorem updateApply_publish_draft (store : List BlogPost) (now : Nat) (id : String)
    (dto : UpdateBlogPostDTO) (post : BlogPost) (ns : Option String)
    (hpp : post.is_published = false) (hip : dto.is_published = some true) :
    ∃ saved, updateApply store now id dto post ns
        = .ok (store.map (fun p => if p.id == id then saved else p), saved) ∧
      saved.is_published = true ∧ saved.published_at = some now := by
  unfold updateApply
  rw [hip, hpp]
  rw [if_neg (by simp)]
  refine ⟨_, rfl, ?_, ?_⟩
  · rw [applySaveHooks_is_published]
    rfl
  · rw [applySaveHooks_published_at]
    rfl

theorem updateApply_republish (store : List BlogPost) (now : Nat) (id : String)
    (dto : UpdateBlogPostDTO) (post : BlogPost) (ns : Option String)
    (hpp : post.is_published = true) (hip : dto.is_published = some true)
    (hsome : post.published_at.isSome = true) :
    ∃ saved, updateApply store now id dto post ns
        = .ok (store.map (fun p => if p.id == id then saved else p), saved) ∧
      saved.is_published = true ∧ saved.published_at = post.published_at := by
  unfold updateApply
  rw [hip, hpp]
  rw [if_neg (by simp)]
  refine ⟨_, rfl, ?_, ?_⟩
  · rw [applySaveHooks_is_published]
    rfl
  · rw [applySaveHooks_published_at]
    rcases hpa : post.published_at with _ | v
    · rw [hpa] at hsome
      simp at hsome
    · rfl

theorem create_ok_fields (store : List BlogPost) (now : Nat) (newId : String)
    (cdto : CreateBlogPostDTO) (author : String) (r : List BlogPost × BlogPost)
    (h : create store now newId cdto author = .ok r) :
    r.2.published_at.isSome = r.2.is_published ∧
    (cdto.is_published = some true → r.2.published_at = some now ∧ r.2.is_published = true) ∧
    (cdto.is_published.getD false = false →
      r.2.published_at = none ∧ r.2.is_published = false) := by
  unfold create at h
  split at h
  · simp at h
  · split at h
    · simp at h
    · injection h with h2
      subst h2
      refine ⟨applySaveHooks_published_at_isSome now _, ?_, ?_⟩
      · intro hip
        rw [hip]
        constructor
        · rw [applySaveHooks_published_at]
          try rfl
        · rw [applySaveHooks_is_published]
          try rfl
      · intro hip
        rw [hip]
        constructor
        · rw [applySaveHooks_published_at]
          try rfl
        · rw [applySaveHooks_is_published]
          try rfl

/-- C5: after every successful create or update, `published_at` is set
exactly when `is_published` is true: the service stamps it on a
false-to-true transition (create with publication, or update publishing a
stored draft), keeps it unchanged on a republish of an already published
post, clears it on a true-to-false transition, and the
`updatePublishedAt` entity hook makes the iff hold on every saved
record. -/
theorem c5_publishedAt_sync :
    (∀ (store : List BlogPost) (now : Nat) (newId : String) (cdto : CreateBlogPostDTO)
        (author : String) (r : List BlogPost × BlogPost),
      create store now newId cdto author = .ok r →
        (r.2.published_at.isSome = r.2.is_published ∧
         (cdto.is_published = some true → r.2.published_at = some now ∧ r.2.is_published = true) ∧
         (cdto.is_published.getD false = false →
           r.2.published_at = none ∧ r.2.is_published = false))) ∧
    (∀ (store : List BlogPost) (now : Nat) (id : String) (dto : UpdateBlogPostDTO)
        (post : BlogPost) (r : List BlogPost × BlogPost),
      store.find? (fun p => p.id == id) = some post →
      update store now id dto = .ok r →
        (r.2.published_at.isSome = r.2.is_published ∧
         (dto.is_published = some true → post.is_published = false → r.2.published_at = some now) ∧
         (dto.is_published = some true → post.is_published = true → post.published_at.isSome = true →
            r.2.published_at = post.published_at) ∧
         (dto.is_published = some false → post.is_published = true →
            r.2.published_at = none ∧ r.2.is_published = false))) := by
  constructor
  · intro store now newId cdto author r h
    exact create_ok_fields store now newId cdto author r h
  · intro store now id dto post r hfind hupd
    rcases hv : validateAuthor id with e | u
    · exfalso
      unfold update at hupd
      rw [hv] at hupd
      simp at hupd
    · obtain ⟨ns, heq⟩ := update_eq_updateApply store now id dto post (by rw [hv]) hfind
      rw [heq] at hupd
      obtain ⟨a, ha⟩ := updateApply_ok_shape store now id dto post ns r hupd
      refine ⟨by rw [ha]; exact applySaveHooks_published_at_isSome now a, ?_, ?_, ?_⟩
      · intro hip hpp
        obtain ⟨saved, hok, hsp, hpa⟩ :=
          updateApply_publish_draft store now id dto post ns hpp hip
        rw [hok] at hupd
        injection hupd with h2
        rw [← h2]
        exact hpa
      · intro hip hpp hsome
        obtain ⟨saved, hok, hsp, hpa⟩ :=
          updateApply_republish store now id dto post ns hpp hip hsome
        rw [hok] at hupd
        injection hupd with h2
        rw [← h2]
        exact hpa
      · intro hip hpp
        obtain ⟨saved, hok, hsp, hsf, hpa⟩ :=
          updateApply_unpublish store now id dto post ns hpp hip
        rw [hok] at hupd
        injection hupd with h2
        rw [← h2]
        exact ⟨hpa, hsp⟩

/-! The slug uniqueness loop (C8). -/

theorem slugSearch_first_free (store : List BlogPost) (excl : Option String) (base : String) :
    ∀ (fuel counter n : Nat), counter ≤ n → n ≤ counter + fuel →
      isSlugTaken store (slugCandidate base n) excl = false →
      (∀ m, counter ≤ m → m < n → isSlugTaken store (slugCandidate base m) excl = true) →
      slugSearch store excl base fuel counter = slugCandidate base n := by
  intro fuel
  induction fuel with
  | zero =>
    intro counter n h1 h2 _ _
    have heq : n = counter := by omega
    subst heq
    rfl
  | succ fuel ih =>
    intro counter n h1 h2 hfree hbusy
    by_cases hcur : n = counter
    · subst hcur
      simp only [slugSearch, hfree]
      rfl
    · have hlt : counter < n := Nat.lt_of_le_of_ne h1 (Ne.symm hcur)
      have htaken : isSlugTaken store (slugCandidate base counter) excl = true :=
        hbusy counter (Nat.le_refl counter) hlt
      simp only [slugSearch, htaken]
      exact ih (counter + 1) n hlt (by omega) hfree (fun m hm1 hm2 => hbusy m (by omega) hm2)

/-- C8: slug uniqueness resolution starts from the base slug derived from
the title and probes `base`, `base-1`, `base-2`, … with isSlugTaken,
returning the first candidate not taken by a post other than excludeId; on
the update path the post's own id is excluded from the taken-check, so a
post may keep its own slug. -/
theorem c8_generateUniqueSlug_first_free (store : List BlogPost) (t : String)
    (excl : Option String) (n : Nat)
    (ht : t ≠ "") (hn : n ≤ store.length)
    (hfree : isSlugTaken store (slugCandidate (slugify t) n) excl = false)
    (hbusy : ∀ m, m < n → isSlugTaken store (slugCandidate (slugify t) m) excl = true) :
    generateUniqueSlug store (some t) excl = .ok (slugCandidate (slugify t) n) := by
  rw [generateUniqueSlug_ok store t excl ht]
  rw [slugSearch_first_free store excl (slugify t) (store.length + 1) 0 n (Nat.zero_le n)
    (by omega) hfree (fun m _ hm2 => hbusy m hm2)]

/-- The stored post of the C8 scenario, already owning the slug
"launch-day". -/
def launchPost : BlogPost :=
  { id := demoPostId, title := "Launch Day", slug := "launch-day", content := "c",
    excerpt := none, featured_image := none, is_published := true, is_featured := false,
    view_count := 0, categories := ["newsroom"], author_id := demoAuthorId,
    created_at := 0, published_at := some 0 }

/-- C8 witness: with an empty store the title "Launch Day" yields
"launch-day"; with that slug already taken it yields "launch-day-1"; on
the update path the owner of the slug keeps it. -/
theorem c8_generateUniqueSlug_first_free_witness :
    generateUniqueSlug [] (some "Launch Day") none = .ok "launch-day" ∧
    generateUniqueSlug [launchPost] (some "Launch Day") none = .ok "launch-day-1" ∧
    generateUniqueSlug [launchPost] (some "Launch Day") (some demoPostId) = .ok "launch-day" := by
  refine ⟨?_, ?_, ?_⟩
  · exact c8_generateUniqueSlug_first_free [] "Launch Day" none 0 (by decide) (Nat.le_refl 0)
      (by decide) (fun m hm => absurd hm (Nat.not_lt_zero m))
  · exact c8_generateUniqueSlug_first_free [launchPost] "Launch Day" none 1 (by decide)
      (by decide) (by decide) (by decide)
  · exact c8_generateUniqueSlug_first_free [launchPost] "Launch Day" (some demoPostId) 0
      (by decide) (by decide) (by decide) (fun m hm => absurd hm (Nat.not_lt_zero m))

/-! Pagination (C9). -/

theorem length_insertSorted (le : BlogPost → BlogPost → Bool) (p : BlogPost)
    (l : List BlogPost) : (insertSorted le p l).length = l.length + 1 := by
  induction l with
  | nil => rfl
  | cons q qs ih =>
    unfold insertSorted
    split
    · simp
    · simp only [List.length_cons, ih]

theorem length_sortPosts (le : BlogPost → BlogPost → Bool) (l : List BlogPost) :
    (sortPosts le l).length = l.length := by
  induction l with
  | nil => rfl
  | cons p ps ih =>
    unfold sortPosts
    rw [length_insertSorted, ih]
    rfl

theorem mem_insertSorted (le : BlogPost → BlogPost → Bool) (p : BlogPost)
    (l : List BlogPost) (x : BlogPost) :
    x ∈ insertSorted le p l ↔ (x = p ∨ x ∈ l) := by
  induction l with
  | nil => simp [insertSorted]
  | cons q qs ih =>
    unfold insertSorted
    split
    · simp only [List.mem_cons]
    · simp only [List.mem_cons, ih]
      tauto

theorem mem_sortPosts (le : BlogPost → BlogPost → Bool) (l : List BlogPost) (x : BlogPost) :
    x ∈ sortPosts le l ↔ x ∈ l := by
  induction l with
  | nil => simp [sortPosts]
  | cons p ps ih =>
    unfold sortPosts
    rw [mem_insertSorted, ih]
    simp

theorem ceilDiv_ge (t l : Nat) (hl : 0 < l) : t ≤ ((t + l - 1) / l) * l := by
  rcases t with _ | s
  · simp
  · have h1 : s + 1 + l - 1 = s + l := by omega
    rw [h1, Nat.add_div_right s hl]
    have h2 : l * (s / l) + s % l = s := Nat.div_add_mod s l
    have h3 : s % l < l := Nat.mod_lt s hl
    have h4 : (s / l + 1) * l = l * (s / l) + l := by ring
    rw [h4]
    omega

theorem ceilDiv_min (t l m : Nat) (hl : 0 < l) (h : t ≤ m * l) : (t + l - 1) / l ≤ m := by
  have hlt : (t + l - 1) / l < m + 1 := by
    rw [Nat.div_lt_iff_lt_mul hl]
    have hml : (m + 1) * l = m * l + l := by ring
    omega
  omega

/-- C9: in every successful list query, page defaults to 1 and limit to
10; total counts the matching posts ignoring pagination; the page's data
has length `min limit (total - (page-1)*limit)` — exactly `(page-1)*limit`
matching posts are skipped and at most `limit` are returned; totalPages is
the ceiling of total over limit (the least number of pages covering all
matches); and every returned item is a stored post matching the query. -/
theorem c9_findAll_pagination (store : List BlogPost) (q : BlogPostQuery)
    (r : PaginatedResult)
    (hok : findAll false store q = .ok r)
    (hlim : 1 ≤ q.limit.getD 10) :
    r.page = q.page.getD 1 ∧
    r.limit = q.limit.getD 10 ∧
    r.total = (store.filter (postMatchesQuery q)).length ∧
    r.data.length = min r.limit (r.total - (r.page - 1) * r.limit) ∧
    r.total ≤ r.totalPages * r.limit ∧
    (∀ m, r.total ≤ m * r.limit → r.totalPages ≤ m) ∧
    (∀ p ∈ r.data, p ∈ store ∧ postMatchesQuery q p = true) := by
  unfold findAll at hok
  repeat' first
    | split at hok
    | dsimp only at hok
  all_goals try exact Except.noConfusion hok
  all_goals injection hok with h2
  all_goals subst h2
  all_goals dsimp only
  all_goals refine ⟨rfl, rfl, rfl, ?_, ?_, ?_, ?_⟩
  all_goals first
    | rw [List.length_take, List.length_drop, length_sortPosts]
    | exact ceilDiv_ge _ _ hlim
    | (intro m hm
       exact ceilDiv_min _ _ m hlim hm)
    | (intro p hp
       have hp1 : p ∈ sortPosts createdDescLe (store.filter (postMatchesQuery q)) :=
         List.drop_subset _ _ (List.take_subset _ _ hp)
       have hp2 := (mem_sortPosts _ _ _).mp hp1
       rw [List.mem_filter] at hp2
       exact hp2)

/-- A published stored post with index-derived id, slug and creation
time. -/
def mkStorePost (i : Nat) : BlogPost :=
  { id := toString i, title := "t", slug := toString i, content := "c", excerpt := none,
    featured_image := none, is_published := true, is_featured := false, view_count := 0,
    categories := ["newsroom"], author_id := "a", created_at := i, published_at := some i }

/-- A store of 23 posts, all matching the unfiltered query. -/
def store23 : List BlogPost := (List.range 23).map mkStorePost

/-- The query of the C9 scenario: page 3, limit 10, no filters. -/
def query3 : BlogPostQuery := { emptyQuery with page := some 3, limit := some 10 }

/-- The page findAll returns for the C9 scenario. -/
def w23res : PaginatedResult :=
  (findAll false store23 query3).toOption.getD
    { data := [], total := 0, page := 0, limit := 0, totalPages := 0 }

/-- C9 witness: for 23 matching posts with limit 10, totalPages is 3 and
page 3 carries exactly 3 items; the pagination theorem applied to this
concrete query. -/
theorem c9_findAll_pagination_witness :
    (w23res.total = 23 ∧ w23res.totalPages = 3 ∧ w23res.data.length = 3) ∧
    (w23res.page = query3.page.getD 1 ∧
     w23res.limit = query3.limit.getD 10 ∧
     w23res.total = (store23.filter (postMatchesQuery query3)).length ∧
     w23res.data.length = min w23res.limit (w23res.total - (w23res.page - 1) * w23res.limit) ∧
     w23res.total ≤ w23res.totalPages * w23res.limit ∧
     (∀ m, w23res.total ≤ m * w23res.limit → w23res.totalPages ≤ m) ∧
     (∀ p ∈ w23res.data, p ∈ store23 ∧ postMatchesQuery query3 p = true)) :=
  ⟨⟨rfl, rfl, rfl⟩, c9_findAll_pagination store23 query3 w23res rfl (by decide)⟩

/-! Well-formedness of derived slugs (C7). -/

theorem jsToLower_not_upper (c : Char) : isUpperAscii (jsToLower c) = false := by
  unfold jsToLower isUpperAscii
  by_cases h : (65 ≤ c.toNat && c.toNat ≤ 90) = true
  · rw [if_pos h]
    simp only [Bool.and_eq_true, decide_eq_true_eq] at h
    have hv : (c.toNat + 32).isValidChar := Or.inl (by omega)
    rw [Char.ofNat, dif_pos hv]
    have htn : (Char.ofNatAux (c.toNat + 32) hv).toNat = c.toNat + 32 := rfl
    rw [htn]
    simp only [Bool.and_eq_false_iff, decide_eq_false_iff_not, not_le]
    omega
  · rw [if_neg h]
    simp only [Bool.and_eq_true, decide_eq_true_eq, not_and, not_le] at h
    simp only [Bool.and_eq_false_iff, decide_eq_false_iff_not, not_le]
    omega

theorem mem_collapseAux (l : List Char) :
    ∀ (b : Bool) (c : Char), c ∈ collapseAux b l → c = '-' ∨ (c ∈ l ∧ isSep c = false) := by
  induction l with
  | nil =>
    intro b c h
    simp [collapseAux] at h
  | cons x xs ih =>
    intro b c h
    simp only [collapseAux] at h
    by_cases hx : isSep x = true
    · rw [if_pos hx] at h
      rcases b
      · rw [if_neg Bool.false_ne_true] at h
        rcases List.mem_cons.mp h with rfl | h2
        · exact Or.inl rfl
        · rcases ih true c h2 with h3 | ⟨h4, h5⟩
          · exact Or.inl h3
          · exact Or.inr ⟨List.mem_cons_of_mem _ h4, h5⟩
      · rw [if_pos rfl] at h
        rcases ih true c h with h3 | ⟨h4, h5⟩
        · exact Or.inl h3
        · exact Or.inr ⟨List.mem_cons_of_mem _ h4, h5⟩
    · rw [if_neg hx] at h
      rcases List.mem_cons.mp h with rfl | h2
      · exact Or.inr ⟨List.mem_cons_self _ _, by simpa using hx⟩
      · rcases ih false c h2 with h3 | ⟨h4, h5⟩
        · exact Or.inl h3
        · exact Or.inr ⟨List.mem_cons_of_mem _ h4, h5⟩

theorem collapseAux_true_head (l : List Char) :
    ∀ c, (collapseAux true l).head? = some c → isSep c = false := by
  induction l with
  | nil =>
    intro c h
    simp [collapseAux] at h
  | cons x xs ih =>
    intro c h
    simp only [collapseAux] at h
    by_cases hx : isSep x = true
    · rw [if_pos hx] at h
      rw [if_pos True.intro] at h
      exact ih c h
    · rw [if_neg hx] at h
      simp only [List.head?_cons, Option.some.injEq] at h
      subst h
      simpa using hx

theorem chain_collapseAux (l : List Char) :
    ∀ b, List.Chain' (fun a d => ¬(a = '-' ∧ d = '-')) (collapseAux b l) := by
  induction l with
  | nil =>
    intro b
    simp [collapseAux]
  | cons x xs ih =>
    intro b
    simp only [collapseAux]
    by_cases hx : isSep x = true
    · rw [if_pos hx]
      rcases b
      · rw [if_neg Bool.false_ne_true]
        rw [List.chain'_cons']
        refine ⟨?_, ih true⟩
        intro y hy
        rintro ⟨_, h2⟩
        have hns := collapseAux_true_head xs y (Option.mem_def.mp hy)
        rw [h2] at hns
        simp [isSep] at hns
      · rw [if_pos rfl]
        exact ih true
    · rw [if_neg hx]
      rw [List.chain'_cons']
      refine ⟨?_, ih false⟩
      intro y hy
      rintro ⟨h1, _⟩
      rw [h1] at hx
      exact hx (by decide)

theorem chain'_dropWhile {R : Char → Char → Prop} (p : Char → Bool) (l : List Char)
    (h : List.Chain' R l) : List.Chain' R (l.dropWhile p) := by
  induction l with
  | nil => exact h
  | cons x xs ih =>
    rw [List.dropWhile_cons]
    split
    · exact ih h.tail
    · exact h

theorem chain'_symm_reverse (l : List Char)
    (h : List.Chain' (fun a d => ¬(a = '-' ∧ d = '-')) l) :
    List.Chain' (fun a d => ¬(a = '-' ∧ d = '-')) l.reverse := by
  rw [List.chain'_reverse]
  exact List.Chain'.imp (fun a d had => fun hp => had ⟨hp.2, hp.1⟩) h

theorem chain'_trimHyphens (l : List Char)
    (h : List.Chain' (fun a d => ¬(a = '-' ∧ d = '-')) l) :
    List.Chain' (fun a d => ¬(a = '-' ∧ d = '-')) (trimHyphens l) :=
  chain'_symm_reverse _ (chain'_dropWhile _ _ (chain'_symm_reverse _ (chain'_dropWhile _ _ h)))

theorem noDoubleHyphen_of_chain (l : List Char)
    (h : List.Chain' (fun a d => ¬(a = '-' ∧ d = '-')) l) : noDoubleHyphen l = true := by
  induction l with
  | nil => rfl
  | cons a l ih =>
    rcases l with _ | ⟨b, rest⟩
    · rfl
    · rw [List.chain'_cons] at h
      rw [noDoubleHyphen]
      rw [Bool.and_eq_true]
      refine ⟨?_, ih h.2⟩
      rcases ha : (a == '-') <;> rcases hb : (b == '-') <;> simp_all

theorem head_dropWhile_not (p : Char → Bool) (l : List Char) :
    ∀ c, (l.dropWhile p).head? = some c → p c = false := by
  induction l with
  | nil =>
    intro c h
    simp at h
  | cons x xs ih =>
    intro c h
    rw [List.dropWhile_cons] at h
    split at h
    · exact ih c h
    · rename_i hpx
      simp only [List.head?_cons, Option.some.injEq] at h
      subst h
      simpa using hpx

theorem head_trimHyphens_ne (l : List Char) :
    ∀ c, (trimHyphens l).head? = some c → (c == '-') = false := by
  intro c h
  unfold trimHyphens at h
  rw [List.head?_reverse] at h
  obtain ⟨t, ht⟩ :=
    List.dropWhile_suffix (l := (l.dropWhile (fun c => c == '-')).reverse) (fun c => c == '-')
  have hlast : ((l.dropWhile (fun c => c == '-')).reverse).getLast? = some c := by
    rw [← ht, List.getLast?_append, h]
    rfl
  rw [List.getLast?_reverse] at hlast
  exact head_dropWhile_not _ _ c hlast

theorem getLast_trimHyphens_ne (l : List Char) :
    ∀ c, (trimHyphens l).getLast? = some c → (c == '-') = false := by
  intro c h
  unfold trimHyphens at h
  rw [List.getLast?_reverse] at h
  exact head_dropWhile_not _ _ c h

theorem mem_trimHyphens (l : List Char) (c : Char) (h : c ∈ trimHyphens l) : c ∈ l := by
  unfold trimHyphens at h
  rw [List.mem_reverse] at h
  have h2 := (List.dropWhile_sublist _).subset h
  rw [List.mem_reverse] at h2
  exact (List.dropWhile_sublist _).subset h2

theorem mem_trimChars (l : List Char) (c : Char) (h : c ∈ trimChars l) : c ∈ l := by
  unfold trimChars at h
  rw [List.mem_reverse] at h
  have h2 := (List.dropWhile_sublist _).subset h
  rw [List.mem_reverse] at h2
  exact (List.dropWhile_sublist _).subset h2

theorem slugify_chars (t : String) :
    ∀ c ∈ (slugify t).toList, (isSlugChar c || c == '-') = true := by
  intro c hc
  have hc3 := mem_trimHyphens _ _ hc
  rcases mem_collapseAux _ false c hc3 with rfl | ⟨hmem, hsep⟩
  · simp
  · rw [List.mem_filter] at hmem
    obtain ⟨hmemT, hkeep⟩ := hmem
    have hmem2 := mem_trimChars _ _ hmemT
    rw [List.mem_map] at hmem2
    obtain ⟨d, _, rfl⟩ := hmem2
    have hupper := jsToLower_not_upper d
    simp only [isSep, Bool.or_eq_false_iff] at hsep
    obtain ⟨⟨hs1, hs2⟩, hs3⟩ := hsep
    simp only [Bool.or_eq_true] at hkeep
    rcases hkeep with (hw | hsp) | hhy
    · simp only [isJsWordChar, Bool.or_eq_true] at hw
      rcases hw with ((hup | hlow) | hdig) | hund
      · rw [hupper] at hup
        exact Bool.noConfusion hup
      · simp [isSlugChar, hlow]
      · simp [isSlugChar, hdig]
      · rw [hs2] at hund
        exact Bool.noConfusion hund
    · rw [hs1] at hsp
      exact Bool.noConfusion hsp
    · rw [hs3] at hhy
      exact Bool.noConfusion hhy

theorem slugWellFormed_slugify (t : String) : slugWellFormed (slugify t) = true := by
  unfold slugWellFormed
  rw [Bool.and_eq_true, Bool.and_eq_true, Bool.and_eq_true]
  refine ⟨⟨⟨?_, ?_⟩, ?_⟩, ?_⟩
  · rw [List.all_eq_true]
    exact slugify_chars t
  · rcases hh : (slugify t).toList.head? with _ | c
    · rfl
    · have hne := head_trimHyphens_ne _ c hh
      simp [bne, hne]
  · rcases hh : (slugify t).toList.getLast? with _ | c
    · rfl
    · have hne := getLast_trimHyphens_ne _ c hh
      simp [bne, hne]
  · exact noDoubleHyphen_of_chain _ (chain'_trimHyphens _ (chain_collapseAux _ false))

/-- C7: for every non-empty title, generateSlug succeeds and its output
consists only of lowercase ASCII alphanumerics and single interior
hyphens, with no leading or trailing hyphen; "Hello, World!" derives
"hello-world"; an empty or non-string title fails with the InvalidInput
error. -/
theorem c7_generateSlug_wellformed :
    (∀ t : String, t ≠ "" →
      generateSlug (some t) = .ok (slugify t) ∧ slugWellFormed (slugify t) = true) ∧
    generateSlug (some "Hello, World!") = .ok "hello-world" ∧
    generateSlug (some "") = .error "Title is required to generate slug" ∧
    generateSlug none = .error "Title is required to generate slug" := by
  refine ⟨?_, by rfl, rfl, rfl⟩
  intro t ht
  constructor
  · simp only [generateSlug]
    rw [if_neg ht]
  · exact slugWellFormed_slugify t

end AithenaBlog
